import Mathlib

/-!
Verification of the person-sensor driver (person_sensor.py).

The driver has two cooperating cores:

* a frame decoder: the tail of PersonSensor.get_faces unpacks, from a raw
  byte buffer, a face-count byte followed by that many fixed 8-byte face
  records and a trailing 16-bit checksum, using struct.unpack_from at
  explicit byte offsets;
* a poll scheduler: the head of PersonSensor.get_faces, which (when
  auto_delay is set) sleeps until PERSON_SENSOR_DELAY milliseconds have
  elapsed since last_read and then updates last_read.

Buffers are modelled as lists of byte values (List Nat, each entry < 256 in
well-formed inputs); struct.error raised by unpack_from when the buffer is
too short for the requested read is modelled by the error side of Except.
Millisecond timestamps from the monotonic clock are modelled as Int.
-/

/-- struct.calcsize "BBH": two bytes plus a 16-bit field at native (2-byte)
alignment, as in line 12 of the source. -/
def PERSON_SENSOR_I2C_HEADER_BYTE_COUNT : Nat := 4

/-- struct.calcsize "BBBBBBbB": eight single-byte fields (line 14). -/
def PERSON_SENSOR_FACE_BYTE_COUNT : Nat := 8

/-- Maximum number of face records in one frame (line 16). -/
def PERSON_SENSOR_FACE_MAX : Nat := 4

/-- struct.calcsize of the full result format "BBHB" + 4 face records + "H":
4 + 1 + 32 + 1 alignment pad + 2 = 40 (lines 17-23). -/
def PERSON_SENSOR_RESULT_BYTE_COUNT : Nat := 40

/-- Minimum time between fresh inferences, in milliseconds (line 29). -/
def PERSON_SENSOR_DELAY : Int := 200

/-- One decoded face record, the namedtuple PersonSensorFace of lines 44-56.
All fields are unpacked with format "BBBBBBbB": seven unsigned bytes and a
signed byte for the id field, hence id is an Int. -/
structure PersonSensorFace where
  box_confidence : Nat
  box_left : Nat
  box_top : Nat
  box_right : Nat
  box_bottom : Nat
  id_confidence : Nat
  id : Int
  is_facing : Nat
deriving DecidableEq, Repr

/-- The only failure the decoding code can raise: struct.error from
struct.unpack_from when the buffer is too short for the requested read.
The fields record the offset of the read, the byte index one past the end
of the requested region, and the buffer length.  The source contains no
other decode-time validation (in particular no face-count bounds check). -/
inductive DecodeError where
  | structError (offset reqEnd bufLen : Nat)
deriving DecidableEq, Repr

/-- struct.unpack_from "b" semantics: a byte unpacked as a signed 8-bit
integer (two's complement). -/
def unpack_i8 (b : Nat) : Int :=
  if b < 128 then (b : Int) else (b : Int) - 256

/-- struct.unpack_from "B" at a given offset: requires one byte at the
offset, returns it unsigned; raises struct.error otherwise. -/
def unpack_u8_from (buf : List Nat) (o : Nat) : Except DecodeError Nat :=
  if o + 1 ≤ buf.length then .ok (buf.getD o 0)
  else .error (.structError o (o + 1) buf.length)

/-- struct.unpack_from "H" at a given offset: requires two bytes at the
offset, returns the native little-endian 16-bit value. -/
def unpack_u16_from (buf : List Nat) (o : Nat) : Except DecodeError Nat :=
  if o + 2 ≤ buf.length then .ok (buf.getD o 0 + 256 * buf.getD (o + 1) 0)
  else .error (.structError o (o + 2) buf.length)

/-- struct.unpack_from "BBBBBBbB" at a given offset (line 163): requires
eight bytes, maps them positionally onto the PersonSensorFace fields, the
seventh through the signed-byte conversion. -/
def unpack_face_from (buf : List Nat) (o : Nat) : Except DecodeError PersonSensorFace :=
  if o + 8 ≤ buf.length then
    .ok { box_confidence := buf.getD o 0
          box_left := buf.getD (o + 1) 0
          box_top := buf.getD (o + 2) 0
          box_right := buf.getD (o + 3) 0
          box_bottom := buf.getD (o + 4) 0
          id_confidence := buf.getD (o + 5) 0
          id := unpack_i8 (buf.getD (o + 6) 0)
          is_facing := buf.getD (o + 7) 0 }
  else .error (.structError o (o + 8) buf.length)

/-- The loop of lines 161-167: for the given count, unpack one face record
at the running offset, advance the offset by PERSON_SENSOR_FACE_BYTE_COUNT,
and append.  Returns the collected faces, in order, together with the
offset after the last record (the offset the checksum is then read at). -/
def read_faces (buf : List Nat) (o : Nat) : Nat → Except DecodeError (List PersonSensorFace × Nat)
  | 0 => .ok ([], o)
  | n + 1 =>
    match unpack_face_from buf o with
    | .error e => .error e
    | .ok f =>
      match read_faces buf (o + PERSON_SENSOR_FACE_BYTE_COUNT) n with
      | .error e => .error e
      | .ok (fs, o2) => .ok (f :: fs, o2)

/-- The decode tail of PersonSensor.get_faces (lines 148-171): skip the
4-byte header (the commented-out header unpack), read the face-count byte
at offset 4, read that many face records starting at offset 5, then read
the 16-bit checksum at the offset the record loop finished at.  Returns
the face list and the value stored in last_checksum. -/
def get_faces_decode (buf : List Nat) : Except DecodeError (List PersonSensorFace × Nat) :=
  match unpack_u8_from buf PERSON_SENSOR_I2C_HEADER_BYTE_COUNT with
  | .error e => .error e
  | .ok num_faces =>
    match read_faces buf (PERSON_SENSOR_I2C_HEADER_BYTE_COUNT + 1) num_faces with
    | .error e => .error e
    | .ok (faces, o) =>
      match unpack_u16_from buf o with
      | .error e => .error e
      | .ok checksum => .ok (faces, checksum)

/-- Packing of one face record into its eight wire bytes, the inverse of
unpack_face_from used to build synthetic frames; the id field is encoded as
a two's-complement byte. -/
def pack_i8 (i : Int) : Nat := (i % 256).toNat

/-- The eight bytes of one face record in wire order. -/
def pack_face (f : PersonSensorFace) : List Nat :=
  [f.box_confidence, f.box_left, f.box_top, f.box_right, f.box_bottom,
   f.id_confidence, pack_i8 f.id, f.is_facing]

/-- A synthetic frame buffer in the fixed wire layout: a 4-byte header, the
face-count byte, the packed face records, then the remaining bytes of the
fixed-size frame (the unused face slots and the trailing checksum). -/
def encode_frame (header : List Nat) (faces : List PersonSensorFace) (rest : List Nat) : List Nat :=
  header ++ [faces.length] ++ (faces.map pack_face).flatten ++ rest

/-- Field ranges under which a PersonSensorFace is representable in the
wire format: unsigned fields are bytes and id is a signed byte. -/
abbrev face_fields_valid (f : PersonSensorFace) : Prop :=
  f.box_confidence < 256 ∧ f.box_left < 256 ∧ f.box_top < 256 ∧ f.box_right < 256 ∧
  f.box_bottom < 256 ∧ f.id_confidence < 256 ∧ -128 ≤ f.id ∧ f.id < 128 ∧ f.is_facing < 256

/-- The mutable per-instance poll state of PersonSensor: the auto_delay
flag fixed at construction and the last_read timestamp (lines 66, 70). -/
structure PollState where
  auto_delay : Bool
  last_read : Int
deriving DecidableEq, Repr

/-- Milliseconds slept by one get_faces call that samples the clock at
time now (lines 136-141): with auto_delay set and delta < 200 the call
sleeps 200 - delta milliseconds, otherwise it does not sleep at all. -/
def get_faces_sleep (s : PollState) (now : Int) : Int :=
  if s.auto_delay then
    if now - s.last_read < PERSON_SENSOR_DELAY then
      PERSON_SENSOR_DELAY - (now - s.last_read)
    else 0
  else 0

/-- The state update of one get_faces call sampling the clock at time now:
line 142 sets last_read to now + delay with delay = 200 - (now - last_read),
and runs only when auto_delay is set. -/
def get_faces_step (s : PollState) (now : Int) : PollState :=
  if s.auto_delay then
    { s with last_read := now + (PERSON_SENSOR_DELAY - (now - s.last_read)) }
  else s

/-- The monotonic time at which the device block read of a get_faces call
begins: the call samples the clock at now, sleeps for get_faces_sleep, and
then immediately issues the read (line 145). -/
def read_start (s : PollState) (now : Int) : Int := now + get_faces_sleep s now

/-- The poll state after a sequence of get_faces calls whose clock samples
are the given list of times. -/
def run_calls (s : PollState) : List Int → PollState
  | [] => s
  | t :: ts => run_calls (get_faces_step s t) ts

/-- Device mode constants (lines 39-42). -/
def MODE_STANDBY : Int := 0x00

/-- Continuous-inference mode constant. -/
def MODE_CONTINUOUS : Int := 0x01

/-- The tuple of valid modes (line 42). -/
def _MODES : List Int := [ MODE_STANDBY, MODE_CONTINUOUS]

/-- Register id for the set-mode command (line 31). -/
def _REG_ADDR_SET_MODE : Int := 0x01

/-- PersonSensor.set_mode (lines 87-100): raise ValueError when the mode is
not in _MODES, otherwise write the two-byte command to the bus.  The ok
value is the byte sequence passed to the single i2c write; the error value
models the ValueError, raised before any bus interaction. -/
def set_mode (mode : Int) : Except String (List Int) :=
  if mode ∈ _MODES then .ok [_REG_ADDR_SET_MODE, mode]
  else .error ("Invalid mode for person sensor")

/-- Appending shifts list indexing by the length of the left part. -/
theorem getD_append_add (l1 l2 : List Nat) (d k : Nat) :
    (l1 ++ l2).getD (l1.length + k) d = l2.getD k d := by
  rw [List.getD_append_right l1 l2 d (l1.length + k) (Nat.le_add_right _ _)]
  simp

/-- Signed-byte decoding inverts two's-complement packing on the signed
byte range. -/
theorem unpack_i8_pack_i8 (i : Int) (h1 : -128 ≤ i) (h2 : i < 128) :
    unpack_i8 (pack_i8 i) = i := by
  unfold unpack_i8 pack_i8
  split <;> omega

/-- A packed face record occupies exactly the 8 wire bytes of one slot. -/
theorem pack_face_length (f : PersonSensorFace) : (pack_face f).length = 8 := by
  simp [pack_face]

/-- The packed records of a face list occupy 8 bytes per face. -/
theorem pack_faces_flatten_length (faces : List PersonSensorFace) :
    ((faces.map pack_face).flatten).length = 8 * faces.length := by
  induction faces with
  | nil => simp
  | cons f fs ih => simp [pack_face, ih]; omega

/-- Unpacking a face record at the position it was packed at recovers the
record, provided its id is in signed-byte range. -/
theorem unpack_face_from_pack (pre suf : List Nat) (f : PersonSensorFace)
    (hv : face_fields_valid f) :
    unpack_face_from (pre ++ (pack_face f ++ suf)) pre.length = .ok f := by
  obtain ⟨-, -, -, -, -, -, h7, h8, -⟩ := hv
  have hlen : (pre ++ (pack_face f ++ suf)).length = pre.length + (8 + suf.length) := by
    simp [pack_face]
    omega
  have hk : ∀ k, (pre ++ (pack_face f ++ suf)).getD (pre.length + k) 0 =
      (pack_face f ++ suf).getD k 0 := fun k => getD_append_add pre _ 0 k
  have hk0 : (pre ++ (pack_face f ++ suf)).getD pre.length 0 =
      (pack_face f ++ suf).getD 0 0 := by
    simpa using hk 0
  unfold unpack_face_from
  rw [if_pos (by omega)]
  rw [hk0, hk 1, hk 2, hk 3, hk 4, hk 5, hk 6, hk 7]
  show Except.ok
      { box_confidence := f.box_confidence, box_left := f.box_left, box_top := f.box_top,
        box_right := f.box_right, box_bottom := f.box_bottom, id_confidence := f.id_confidence,
        id := unpack_i8 (pack_i8 f.id), is_facing := f.is_facing } = Except.ok f
  rw [unpack_i8_pack_i8 f.id h7 h8]

/-- The face-record loop decodes a packed face list placed after any prefix
back to that list, leaving the offset at the end of the packed region. -/
theorem read_faces_encode (faces : List PersonSensorFace) :
    ∀ pre suf : List Nat, (∀ f ∈ faces, face_fields_valid f) →
      read_faces (pre ++ ((faces.map pack_face).flatten ++ suf)) pre.length faces.length =
        .ok (faces, pre.length + 8 * faces.length) := by
  induction faces with
  | nil => intro pre suf _; simp [read_faces]
  | cons f fs ih =>
    intro pre suf hv
    have hf : face_fields_valid f := hv f (by simp)
    have hfs : ∀ g ∈ fs, face_fields_valid g := fun g hg => hv g (by simp [hg])
    have hbuf : pre ++ (((f :: fs).map pack_face).flatten ++ suf) =
        pre ++ (pack_face f ++ ((fs.map pack_face).flatten ++ suf)) := by
      simp
    rw [hbuf]
    show read_faces _ pre.length (fs.length + 1) = _
    rw [read_faces, unpack_face_from_pack pre _ f hf]
    have hassoc : pre ++ (pack_face f ++ ((fs.map pack_face).flatten ++ suf)) =
        (pre ++ pack_face f) ++ ((fs.map pack_face).flatten ++ suf) := by
      simp
    have hlen2 : pre.length + PERSON_SENSOR_FACE_BYTE_COUNT = (pre ++ pack_face f).length := by
      simp [pack_face, PERSON_SENSOR_FACE_BYTE_COUNT]
    rw [hassoc, hlen2, ih (pre ++ pack_face f) suf hfs]
    have : (pre ++ pack_face f).length + 8 * fs.length = pre.length + 8 * (f :: fs).length := by
      simp [pack_face]
      omega
    rw [this]

/-- C4: for every face count n with 0 ≤ n ≤ 4 and arbitrary valid byte
values per field, encoding a synthetic frame buffer in the fixed wire
layout with those n records (any header bytes, any bytes in the unused
slots and checksum region) and then decoding it yields a face list that
matches the input records exactly, in order and in count; with faces = []
this covers the zero-face frame decoding to an empty face list. -/
theorem c4_round_trip (header : List Nat) (faces : List PersonSensorFace) (rest : List Nat)
    (hh : header.length = PERSON_SENSOR_I2C_HEADER_BYTE_COUNT)
    (hn : faces.length ≤ PERSON_SENSOR_FACE_MAX)
    (hr : rest.length = 8 * (PERSON_SENSOR_FACE_MAX - faces.length) + 2)
    (hv : ∀ f ∈ faces, face_fields_valid f) :
    ∃ cs, get_faces_decode (encode_frame header faces rest) = .ok (faces, cs) := by
  have hh4 : header.length = 4 := hh
  have hn4 : faces.length ≤ 4 := hn
  have hr4 : rest.length = 8 * (4 - faces.length) + 2 := hr
  have hlen : (encode_frame header faces rest).length =
      4 + 1 + 8 * faces.length + (8 * (4 - faces.length) + 2) := by
    unfold encode_frame
    rw [List.length_append, List.length_append, List.length_append,
      pack_faces_flatten_length, hh4, hr4]
    simp
  have hcount : (encode_frame header faces rest).getD 4 0 = faces.length := by
    unfold encode_frame
    rw [List.getD_append _ _ _ _ (by rw [List.length_append, List.length_append, hh4]; simp; omega),
      List.getD_append _ _ _ _ (by rw [List.length_append, hh4]; simp),
      List.getD_append_right _ _ _ _ (le_of_eq hh4), hh4]
    simp
  have hu8 : unpack_u8_from (encode_frame header faces rest)
      PERSON_SENSOR_I2C_HEADER_BYTE_COUNT = .ok faces.length := by
    unfold unpack_u8_from PERSON_SENSOR_I2C_HEADER_BYTE_COUNT
    rw [if_pos (by omega), hcount]
  have hpre : (header ++ [faces.length]).length = PERSON_SENSOR_I2C_HEADER_BYTE_COUNT + 1 := by
    rw [List.length_append, hh4]
    simp [PERSON_SENSOR_I2C_HEADER_BYTE_COUNT]
  have hread : read_faces (encode_frame header faces rest)
      (PERSON_SENSOR_I2C_HEADER_BYTE_COUNT + 1) faces.length =
      .ok (faces, PERSON_SENSOR_I2C_HEADER_BYTE_COUNT + 1 + 8 * faces.length) := by
    have hassoc : encode_frame header faces rest =
        (header ++ [faces.length]) ++ ((faces.map pack_face).flatten ++ rest) := by
      simp [encode_frame]
    rw [hassoc, ← hpre]
    exact read_faces_encode faces (header ++ [faces.length]) rest hv
  have h16 : PERSON_SENSOR_I2C_HEADER_BYTE_COUNT + 1 + 8 * faces.length + 2 ≤
      (encode_frame header faces rest).length := by
    rw [hlen]
    unfold PERSON_SENSOR_I2C_HEADER_BYTE_COUNT
    omega
  simp only [get_faces_decode, hu8, hread]
  unfold unpack_u16_from
  rw [if_pos h16]
  exact ⟨_, rfl⟩

/-- Witness for C4 at concrete inputs: a one-face frame and a zero-face
frame both decode back to their input face lists. -/
theorem c4_round_trip_witness :
    (∃ cs, get_faces_decode
        (encode_frame [0, 0, 0, 0] [⟨10, 20, 30, 40, 50, 60, -1, 1⟩] (List.replicate 26 7)) =
      .ok ([⟨10, 20, 30, 40, 50, 60, -1, 1⟩], cs)) ∧
    (∃ cs, get_faces_decode (encode_frame [0, 0, 0, 0] [] (List.replicate 34 9)) =
      .ok ([], cs)) := by
  constructor
  · exact c4_round_trip _ _ _ (by decide) (by decide) (by decide) (by decide)
  · exact c4_round_trip _ _ _ (by decide) (by decide) (by decide) (by decide)

/-- C1 fails on the code: with auto_delay enabled, last_read = 0 and a
first call at t = 1000 ms, the device read starts immediately at t = 1000
and last_read is set to 200 (not 1000); a second call at t = 1005 ms then
sees an elapsed time of 805 ms, does not sleep, and starts its read at
t = 1005 — only 5 ms after the previous read, below PERSON_SENSOR_DELAY. -/
theorem c1_rate_limit_floor_violated :
    read_start ⟨true, 0⟩ 1000 = 1000 ∧
    get_faces_step ⟨true, 0⟩ 1000 = ⟨true, 200⟩ ∧
    read_start (get_faces_step ⟨true, 0⟩ 1000) 1005 = 1005 ∧
    read_start (get_faces_step ⟨true, 0⟩ 1000) 1005 - read_start ⟨true, 0⟩ 1000 <
      PERSON_SENSOR_DELAY := by
  decide

/-- C5 fails on the code: with auto_delay disabled, get_faces never
updates last_read at all — after a call at t = 1000 ms the stored
last_read is still 0, not the read-start timestamp 1000. -/
theorem c5_counterexample :
    (get_faces_step ⟨false, 0⟩ 1000).last_read = 0 ∧
    read_start ⟨false, 0⟩ 1000 = 1000 ∧
    (get_faces_step ⟨false, 0⟩ 1000).last_read ≠ read_start ⟨false, 0⟩ 1000 := by
  decide

/-- C5 amended: last_read is updated (before the device read and decode)
only when auto_delay is true, and then it is set to the previous
last_read + PERSON_SENSOR_DELAY, which equals the read-start timestamp
exactly in the case where the call slept (elapsed < PERSON_SENSOR_DELAY);
when auto_delay is false the poll state is left unchanged. -/
theorem c5_amended (s : PollState) (now : Int) :
    (s.auto_delay = true →
      (get_faces_step s now).last_read = s.last_read + PERSON_SENSOR_DELAY ∧
      (now - s.last_read < PERSON_SENSOR_DELAY →
        (get_faces_step s now).last_read = read_start s now)) ∧
    (s.auto_delay = false → get_faces_step s now = s) := by
  rcases s with ⟨ad, lr⟩
  cases ad with
  | false =>
    refine ⟨fun h => Bool.noConfusion h, fun _ => ?_⟩
    simp [get_faces_step]
  | true =>
    refine ⟨fun _ => ⟨?_, fun hlt => ?_⟩, fun h => Bool.noConfusion h⟩
    · simp [get_faces_step, PERSON_SENSOR_DELAY]
      omega
    · simp [get_faces_step, read_start, get_faces_sleep, PERSON_SENSOR_DELAY] at *
      omega

/-- Witness for C5 amended at a concrete input: auto_delay true,
last_read 0, call at t = 100 (elapsed 100 < 200): last_read becomes 200,
which is the read-start time. -/
theorem c5_amended_witness :
    (get_faces_step ⟨true, 0⟩ 100).last_read = 0 + PERSON_SENSOR_DELAY ∧
    (get_faces_step ⟨true, 0⟩ 100).last_read = read_start ⟨true, 0⟩ 100 := by
  have h := c5_amended ⟨true, 0⟩ 100
  exact ⟨(h.1 rfl).1, (h.1 rfl).2 (by decide)⟩

/-- C7: across every sequence of successive get_faces calls, last_read is
monotonically non-decreasing (with auto_delay it grows by 200 per call,
without it it never changes). -/
theorem c7_last_read_monotone (s : PollState) (ts : List Int) :
    s.last_read ≤ (run_calls s ts).last_read := by
  induction ts generalizing s with
  | nil => simp [run_calls]
  | cons t ts ih =>
    have hstep : s.last_read ≤ (get_faces_step s t).last_read := by
      unfold get_faces_step
      split
      · simp [PERSON_SENSOR_DELAY]
        omega
      · exact le_refl _
    calc s.last_read ≤ (get_faces_step s t).last_read := hstep
      _ ≤ (run_calls (get_faces_step s t) ts).last_read := ih _
      _ = (run_calls s (t :: ts)).last_read := by rw [run_calls]

/-- C8: with auto_delay false a get_faces call never sleeps, whatever the
elapsed time; and whenever the elapsed time since last_read is at least
PERSON_SENSOR_DELAY, the call does not sleep either. -/
theorem c8_no_sleep (s : PollState) (now : Int) :
    (s.auto_delay = false → get_faces_sleep s now = 0) ∧
    (PERSON_SENSOR_DELAY ≤ now - s.last_read → get_faces_sleep s now = 0) := by
  constructor
  · intro h
    simp [get_faces_sleep, h]
  · intro h
    unfold get_faces_sleep
    split
    · rw [if_neg (by omega)]
    · rfl

/-- Witness for C8 at concrete inputs: no sleep with auto_delay off after
50 ms, and no sleep with auto_delay on after 300 ms. -/
theorem c8_no_sleep_witness :
    get_faces_sleep ⟨false, 0⟩ 50 = 0 ∧ get_faces_sleep ⟨true, 0⟩ 300 = 0 := by
  constructor
  · exact (c8_no_sleep ⟨false, 0⟩ 50).1 rfl
  · exact (c8_no_sleep ⟨true, 0⟩ 300).2 (by decide)

/-- A face-record unpack succeeds whenever 8 bytes remain at the offset. -/
theorem unpack_face_from_ok_ex (buf : List Nat) (o : Nat) (h : o + 8 ≤ buf.length) :
    ∃ f, unpack_face_from buf o = .ok f := by
  unfold unpack_face_from
  rw [if_pos h]
  exact ⟨_, rfl⟩

/-- A face-record unpack raises struct.error when fewer than 8 bytes
remain at the offset. -/
theorem unpack_face_from_err (buf : List Nat) (o : Nat) (h : buf.length < o + 8) :
    unpack_face_from buf o = .error (.structError o (o + 8) buf.length) := by
  unfold unpack_face_from
  rw [if_neg (by omega)]

/-- The face-record loop succeeds exactly when the buffer holds all the
records the count demands (or the count is zero). -/
theorem read_faces_ok_iff (buf : List Nat) (n : Nat) :
    ∀ o, (∃ r, read_faces buf o n = .ok r) ↔ (n = 0 ∨ o + 8 * n ≤ buf.length) := by
  induction n with
  | zero => intro o; simp [read_faces]
  | succ n ih =>
    intro o
    by_cases h8 : o + 8 ≤ buf.length
    · obtain ⟨f, hf⟩ := unpack_face_from_ok_ex buf o h8
      constructor
      · rintro ⟨r, hr⟩
        rcases hrec : read_faces buf (o + PERSON_SENSOR_FACE_BYTE_COUNT) n with e | p
        · simp only [read_faces, hf, hrec] at hr
          exact Except.noConfusion hr
        · have h2 := (ih (o + PERSON_SENSOR_FACE_BYTE_COUNT)).mp ⟨p, hrec⟩
          unfold PERSON_SENSOR_FACE_BYTE_COUNT at h2
          right
          omega
      · intro h
        obtain ⟨⟨fs, o2⟩, hrec⟩ : ∃ r, read_faces buf (o + PERSON_SENSOR_FACE_BYTE_COUNT) n = .ok r := by
          apply (ih (o + PERSON_SENSOR_FACE_BYTE_COUNT)).mpr
          unfold PERSON_SENSOR_FACE_BYTE_COUNT
          omega
        exact ⟨(f :: fs, o2), by simp only [read_faces, hf, hrec]⟩
    · apply iff_of_false
      · rintro ⟨r, hr⟩
        have hf := unpack_face_from_err buf o (by omega)
        simp only [read_faces, hf] at hr
        exact Except.noConfusion hr
      · intro hcon
        rcases hcon with h | h
        · exact Nat.succ_ne_zero n h
        · omega

/-- When the face-record loop succeeds, the offset it hands back (where
the checksum is then read) is the start offset plus 8 per face. -/
theorem read_faces_ok_offset (buf : List Nat) (n : Nat) :
    ∀ o fs o2, read_faces buf o n = .ok (fs, o2) → o2 = o + 8 * n := by
  induction n with
  | zero =>
    intro o fs o2 h
    simp only [read_faces, Except.ok.injEq, Prod.mk.injEq] at h
    omega
  | succ n ih =>
    intro o fs o2 h
    rcases hf : unpack_face_from buf o with e | f
    · simp only [read_faces, hf] at h
      exact Except.noConfusion h
    · rcases hr : read_faces buf (o + PERSON_SENSOR_FACE_BYTE_COUNT) n with e | ⟨fs2, o3⟩
      · simp only [read_faces, hf, hr] at h
        exact Except.noConfusion h
      · simp only [read_faces, hf, hr, Except.ok.injEq, Prod.mk.injEq] at h
        have h3 := ih (o + PERSON_SENSOR_FACE_BYTE_COUNT) fs2 o3 hr
        unfold PERSON_SENSOR_FACE_BYTE_COUNT at h3
        omega

/-- C6 fails on the code: the 7-byte buffer 00 00 00 00 00 07 09, far
shorter than the fixed frame size, decodes successfully (face count 0,
checksum read from bytes 5-6) instead of failing with a Truncated error. -/
theorem c6_counterexample :
    get_faces_decode ([0, 0, 0, 0, 0, 7, 9]) = .ok ([], 7 + 256 * 9) ∧
    ([0, 0, 0, 0, 0, 7, 9] : List Nat).length < PERSON_SENSOR_RESULT_BYTE_COUNT := by
  exact ⟨rfl, by decide⟩

/-- C6 amended: decoding succeeds exactly when the buffer holds the
header, the count byte, the number of face records the count byte itself
declares, and two checksum bytes after them — so the threshold depends on
the runtime face count, not on the fixed frame size, and any failure is a
struct.error range failure (the only error the code can raise), not a
dedicated Truncated error. -/
theorem c6_decode_ok_iff (buf : List Nat) :
    (∃ v, get_faces_decode buf = .ok v) ↔
      PERSON_SENSOR_I2C_HEADER_BYTE_COUNT + 1 +
        8 * buf.getD PERSON_SENSOR_I2C_HEADER_BYTE_COUNT 0 + 2 ≤ buf.length := by
  show _ ↔ 4 + 1 + 8 * buf.getD 4 0 + 2 ≤ buf.length
  by_cases h5 : 4 + 1 ≤ buf.length
  · have h8 : unpack_u8_from buf PERSON_SENSOR_I2C_HEADER_BYTE_COUNT = .ok (buf.getD 4 0) := by
      unfold unpack_u8_from PERSON_SENSOR_I2C_HEADER_BYTE_COUNT
      rw [if_pos h5]
    by_cases hfit : 4 + 1 + 8 * buf.getD 4 0 ≤ buf.length
    · obtain ⟨⟨fs, o2⟩, hr⟩ :
          ∃ r, read_faces buf (PERSON_SENSOR_I2C_HEADER_BYTE_COUNT + 1) (buf.getD 4 0) = .ok r := by
        apply (read_faces_ok_iff buf (buf.getD 4 0) (PERSON_SENSOR_I2C_HEADER_BYTE_COUNT + 1)).mpr
        unfold PERSON_SENSOR_I2C_HEADER_BYTE_COUNT
        omega
      have ho2 : o2 = PERSON_SENSOR_I2C_HEADER_BYTE_COUNT + 1 + 8 * buf.getD 4 0 :=
        read_faces_ok_offset buf (buf.getD 4 0) (PERSON_SENSOR_I2C_HEADER_BYTE_COUNT + 1) fs o2 hr
      unfold PERSON_SENSOR_I2C_HEADER_BYTE_COUNT at ho2
      by_cases h16 : o2 + 2 ≤ buf.length
      · have hd : get_faces_decode buf =
            .ok (fs, buf.getD o2 0 + 256 * buf.getD (o2 + 1) 0) := by
          simp only [get_faces_decode, h8, hr]
          unfold unpack_u16_from
          rw [if_pos h16]
        exact iff_of_true ⟨_, hd⟩ (by omega)
      · have hd : get_faces_decode buf = .error (.structError o2 (o2 + 2) buf.length) := by
          simp only [get_faces_decode, h8, hr]
          unfold unpack_u16_from
          rw [if_neg h16]
        apply iff_of_false
        · rintro ⟨v, hv⟩
          rw [hd] at hv
          exact Except.noConfusion hv
        · omega
    · rcases hr : read_faces buf (PERSON_SENSOR_I2C_HEADER_BYTE_COUNT + 1) (buf.getD 4 0)
          with e | p
      · have hd : get_faces_decode buf = .error e := by
          simp only [get_faces_decode, h8, hr]
        apply iff_of_false
        · rintro ⟨v, hv⟩
          rw [hd] at hv
          exact Except.noConfusion hv
        · omega
      · exfalso
        have h2 := (read_faces_ok_iff buf (buf.getD 4 0) (PERSON_SENSOR_I2C_HEADER_BYTE_COUNT + 1)).mp
          ⟨p, hr⟩
        unfold PERSON_SENSOR_I2C_HEADER_BYTE_COUNT at h2
        omega
  · have h8 : unpack_u8_from buf PERSON_SENSOR_I2C_HEADER_BYTE_COUNT =
        .error (.structError 4 (4 + 1) buf.length) := by
      unfold unpack_u8_from PERSON_SENSOR_I2C_HEADER_BYTE_COUNT
      rw [if_neg h5]
    have hd : get_faces_decode buf = .error (.structError 4 (4 + 1) buf.length) := by
      simp only [get_faces_decode, h8]
    apply iff_of_false
    · rintro ⟨v, hv⟩
      rw [hd] at hv
      exact Except.noConfusion hv
    · omega

/-- C3 fails on the code: a buffer whose face-count byte is 5 need not
make decoding fail at all — on this 48-byte input with count byte 5, the
decoder happily reads five face records and a checksum and succeeds.  The
code contains no face-count bounds check and no InvalidCount error. -/
theorem c3_counterexample :
    5 ≤ ([0, 0, 0, 0, 5] ++ List.replicate 43 0 : List Nat).getD
        PERSON_SENSOR_I2C_HEADER_BYTE_COUNT 0 ∧
    get_faces_decode ([0, 0, 0, 0, 5] ++ List.replicate 43 0) =
      .ok ([⟨0, 0, 0, 0, 0, 0, 0, 0⟩, ⟨0, 0, 0, 0, 0, 0, 0, 0⟩, ⟨0, 0, 0, 0, 0, 0, 0, 0⟩,
            ⟨0, 0, 0, 0, 0, 0, 0, 0⟩, ⟨0, 0, 0, 0, 0, 0, 0, 0⟩], 0) := by
  exact ⟨by decide, rfl⟩

/-- C3 amended: on the driver's actual buffers, which are always exactly
PERSON_SENSOR_RESULT_BYTE_COUNT bytes, a face-count byte of 5 or greater
does make decoding fail, but with the struct.error range failure raised
while reading the fifth face record at offset 37 (needing 45 bytes), not
with a dedicated InvalidCount error. -/
theorem c3_amended (buf : List Nat)
    (hlen : buf.length = PERSON_SENSOR_RESULT_BYTE_COUNT)
    (hcount : 5 ≤ buf.getD PERSON_SENSOR_I2C_HEADER_BYTE_COUNT 0) :
    get_faces_decode buf = .error (.structError 37 45 PERSON_SENSOR_RESULT_BYTE_COUNT) := by
  have hlen40 : buf.length = 40 := hlen
  have hc4 : 5 ≤ buf.getD 4 0 := hcount
  obtain ⟨m, hm⟩ : ∃ m, buf.getD 4 0 = m + 5 := ⟨buf.getD 4 0 - 5, by omega⟩
  have h8 : unpack_u8_from buf 4 = .ok (m + 5) := by
    unfold unpack_u8_from
    rw [if_pos (by omega), hm]
  obtain ⟨f0, e0⟩ := unpack_face_from_ok_ex buf (4 + 1) (by omega)
  obtain ⟨f1, e1⟩ := unpack_face_from_ok_ex buf (4 + 1 + 8) (by omega)
  obtain ⟨f2, e2⟩ := unpack_face_from_ok_ex buf (4 + 1 + 8 + 8) (by omega)
  obtain ⟨f3, e3⟩ := unpack_face_from_ok_ex buf (4 + 1 + 8 + 8 + 8) (by omega)
  have e4 : unpack_face_from buf (4 + 1 + 8 + 8 + 8 + 8) =
      .error (.structError (4 + 1 + 8 + 8 + 8 + 8) (4 + 1 + 8 + 8 + 8 + 8 + 8) buf.length) :=
    unpack_face_from_err buf (4 + 1 + 8 + 8 + 8 + 8) (by omega)
  simp only [get_faces_decode, h8, PERSON_SENSOR_I2C_HEADER_BYTE_COUNT,
    read_faces, PERSON_SENSOR_FACE_BYTE_COUNT, e0, e1, e2, e3, e4]
  rw [hlen40]
  rfl

/-- Witness for C3 amended at a concrete input: the 40-byte buffer with
count byte 5 and zeros elsewhere fails with the struct range error at
offset 37. -/
theorem c3_amended_witness :
    get_faces_decode ([0, 0, 0, 0, 5] ++ List.replicate 35 0) =
      .error (.structError 37 45 PERSON_SENSOR_RESULT_BYTE_COUNT) :=
  c3_amended ([0, 0, 0, 0, 5] ++ List.replicate 35 0) (by decide) (by decide)

/-- C2 fails on the code: the checksum is read at the count-dependent
offset 5 + 8 * face_count, not at the fixed offset determined by the
maximum record count.  On this 40-byte buffer with face count 0, the
stored checksum value is the 16-bit word at bytes 5-6 (0xBBAA), while the
16-bit word at the fixed offset header + count byte + 4 * 8 = 37 is
0xBEEF. -/
theorem c2_checksum_offset_depends_on_count :
    get_faces_decode ([0, 0, 0, 0, 0, 0xAA, 0xBB] ++ List.replicate 30 0 ++ [0xEF, 0xBE, 0]) =
      .ok ([], 0xBBAA) ∧
    unpack_u16_from ([0, 0, 0, 0, 0, 0xAA, 0xBB] ++ List.replicate 30 0 ++ [0xEF, 0xBE, 0])
      (PERSON_SENSOR_I2C_HEADER_BYTE_COUNT + 1 +
        PERSON_SENSOR_FACE_BYTE_COUNT * PERSON_SENSOR_FACE_MAX) = .ok 0xBEEF ∧
    (0xBBAA : Nat) ≠ 0xBEEF := by
  exact ⟨rfl, rfl, by decide⟩

/-- C9: a decoded face record takes its seventh field (id) from the byte
at offset o + 6 through the signed 8-bit interpretation (so a byte
b ≥ 128 yields b - 256), while all other seven fields are the raw
unsigned bytes at their positions. -/
theorem c9_id_signed (buf : List Nat) (o : Nat) (f : PersonSensorFace)
    (h : unpack_face_from buf o = .ok f) :
    f.id = unpack_i8 (buf.getD (o + 6) 0) ∧
    f.box_confidence = buf.getD o 0 ∧
    f.box_left = buf.getD (o + 1) 0 ∧
    f.box_top = buf.getD (o + 2) 0 ∧
    f.box_right = buf.getD (o + 3) 0 ∧
    f.box_bottom = buf.getD (o + 4) 0 ∧
    f.id_confidence = buf.getD (o + 5) 0 ∧
    f.is_facing = buf.getD (o + 7) 0 ∧
    (128 ≤ buf.getD (o + 6) 0 → f.id = (buf.getD (o + 6) 0 : Int) - 256) := by
  unfold unpack_face_from at h
  split at h
  · injection h with h
    subst h
    refine ⟨rfl, rfl, rfl, rfl, rfl, rfl, rfl, rfl, ?_⟩
    intro hb
    show unpack_i8 (buf.getD (o + 6) 0) = _
    unfold unpack_i8
    rw [if_neg (by omega)]
  · exact Except.noConfusion h

/-- Witness for C9 at a concrete input: the face record whose id byte is
0xFF decodes to id = 255 - 256 = -1. -/
theorem c9_id_signed_witness :
    128 ≤ ([0, 0, 0, 0, 0, 0, 255, 0] : List Nat).getD (0 + 6) 0 ∧
    (⟨0, 0, 0, 0, 0, 0, -1, 0⟩ : PersonSensorFace).id =
      (([0, 0, 0, 0, 0, 0, 255, 0] : List Nat).getD (0 + 6) 0 : Int) - 256 := by
  have h : unpack_face_from [0, 0, 0, 0, 0, 0, 255, 0] 0 =
      .ok ⟨0, 0, 0, 0, 0, 0, -1, 0⟩ := rfl
  have h9 := (c9_id_signed [0, 0, 0, 0, 0, 0, 255, 0] 0 _ h).2.2.2.2.2.2.2.2
  exact ⟨by decide, h9 (by decide)⟩

/-- C10: set_mode raises ValueError (and performs no bus write) for every
argument that is neither MODE_STANDBY nor MODE_CONTINUOUS, and for each of
the two valid modes it writes exactly the two-byte command
[ _REG_ADDR_SET_MODE, mode]. -/
theorem c10_set_mode (mode : Int) :
    (mode = MODE_STANDBY ∨ mode = MODE_CONTINUOUS →
      set_mode mode = .ok [ _REG_ADDR_SET_MODE, mode]) ∧
    (mode ≠ MODE_STANDBY ∧ mode ≠ MODE_CONTINUOUS →
      set_mode mode = .error ("Invalid mode for person sensor")) := by
  constructor
  · intro h
    have hm : mode ∈ _MODES := by
      rcases h with h | h <;> simp [_MODES, h]
    unfold set_mode
    rw [if_pos hm]
  · rintro ⟨h1, h2⟩
    have hm : mode ∉ _MODES := by
      simp [_MODES]
      exact ⟨h1, h2⟩
    unfold set_mode
    rw [if_neg hm]

/-- Witness for C10 at concrete inputs: both valid modes write their
two-byte command, and mode 2 is rejected. -/
theorem c10_set_mode_witness :
    set_mode 0 = .ok [ 1, 0] ∧ set_mode 1 = .ok [ 1, 1] ∧
    set_mode 2 = .error ("Invalid mode for person sensor") := by
  refine ⟨?_, ?_, ?_⟩
  · exact (c10_set_mode 0).1 (Or.inl rfl)
  · exact (c10_set_mode 1).1 (Or.inr rfl)
  · exact (c10_set_mode 2).2 ⟨by decide, by decide⟩
